import Mathlib

/-!
Shallow embedding of `policyengine/outputs/macro/comparison/calculate_economy_comparison.py`.

Modelling conventions:
* Python / numpy floating-point values are modelled by `ℚ` (exact arithmetic on the
  literal values appearing in the source).
* A numpy float division whose result is not a finite real number (`0/0` giving NaN,
  `x/0` giving ±inf) is modelled by `fdiv`, which returns `none` in that case and
  `some (a / b)` otherwise.  No float division in this file ever raises an exception,
  matching the numpy semantics noted in the source comments.
* A `MicroSeries` (a value array paired with a weight array) is modelled by lists of
  per-unit records; `series.sum()` is the weighted sum `Σ value·weight`,
  `series.count()` is the weight sum, masking is `List.filter`.
* Python strings used as single-character containment tests are modelled by `List Char`.
-/

/-- Floating-point division: `some (a / b)` when the denominator is nonzero, `none`
when the float result would be NaN or ±inf (denominator zero). -/
def fdiv (a b : ℚ) : Option ℚ := if b = 0 then none else some (a / b)

/-- An interval endpoint as used in the source's `BOUNDS` list: either a finite float
or one of numpy's infinities (`-np.inf`, `np.inf`). -/
inductive Bnd where
  | negInf
  | fin (q : ℚ)
  | posInf
deriving DecidableEq

/-- Comparison `lower < x` where `lower` may be `-np.inf` or `np.inf`. -/
def boundLt : Bnd → ℚ → Bool
  | Bnd.negInf, _ => true
  | Bnd.fin q, x => decide (q < x)
  | Bnd.posInf, _ => false

/-- Comparison `x <= upper` where `upper` may be `-np.inf` or `np.inf`. -/
def boundLe : ℚ → Bnd → Bool
  | _, Bnd.negInf => false
  | x, Bnd.fin q => decide (x ≤ q)
  | _, Bnd.posInf => true

/-- The source's bucket-membership test `(income_change > lower) & (income_change <= upper)`. -/
def inGroupQ (lower upper : Bnd) (x : ℚ) : Bool :=
  boundLt lower x && boundLe x upper

/-- The fields of a `SingleEconomy` snapshot that the comparison functions under
study read.  Per-household and per-person arrays are parallel lists. -/
structure SingleEconomy where
  type : String
  total_tax : ℚ
  total_state_tax : ℚ
  total_benefits : ℚ
  total_net_income : ℚ
  household_net_income : List ℚ
  household_weight : List ℚ
  household_count_people : List ℚ
  household_income_decile : List ℤ
  household_wealth_decile : List ℤ
  person_in_poverty : List ℚ
  person_in_deep_poverty : List ℚ
  person_weight : List ℚ
  is_male : Option (List Bool)
  cliff_gap : ℚ
  cliff_share : ℚ

/-- One household row: baseline net income, reform net income, the (shared) household
weight, the household's people count, and its decile rank. -/
structure HUnit where
  baseNet : ℚ
  refNet : ℚ
  weight : ℚ
  people : ℚ
  decile : ℤ
deriving DecidableEq

/-- Zip five parallel per-household arrays into a list of `HUnit` rows. -/
def mkUnits : List ℚ → List ℚ → List ℚ → List ℚ → List ℤ → List HUnit
  | b :: bs, r :: rs, w :: ws, p :: ps, d :: ds =>
      ⟨b, r, w, p, d⟩ :: mkUnits bs rs ws ps ds
  | _, _, _, _, _ => []

/-- Household rows keyed on `household_income_decile` (reform incomes are paired with
the baseline weights, exactly as in the source). -/
def householdUnits (baseline reform : SingleEconomy) : List HUnit :=
  mkUnits baseline.household_net_income reform.household_net_income
    baseline.household_weight baseline.household_count_people
    baseline.household_income_decile

/-- Household rows keyed on `household_wealth_decile` (used by the wealth-decile
variants of the aggregators). -/
def wealthHouseholdUnits (baseline reform : SingleEconomy) : List HUnit :=
  mkUnits baseline.household_net_income reform.household_net_income
    baseline.household_weight baseline.household_count_people
    baseline.household_wealth_decile

/-- Result record of the budget aggregator. -/
structure BudgetaryImpact where
  budgetary_impact : ℚ
  tax_revenue_impact : ℚ
  state_tax_revenue_impact : ℚ
  benefit_spending_impact : ℚ
  households : ℚ
  baseline_net_income : ℚ

/-- Embedding of the source's `budgetary_impact` function. -/
def budgetaryImpact (baseline reform : SingleEconomy) : BudgetaryImpact :=
  let tax_revenue_impact := reform.total_tax - baseline.total_tax
  let state_tax_revenue_impact := reform.total_state_tax - baseline.total_state_tax
  let benefit_spending_impact := reform.total_benefits - baseline.total_benefits
  { budgetary_impact := tax_revenue_impact - benefit_spending_impact
    tax_revenue_impact := tax_revenue_impact
    state_tax_revenue_impact := state_tax_revenue_impact
    benefit_spending_impact := benefit_spending_impact
    households := baseline.household_weight.sum
    baseline_net_income := baseline.total_net_income }

/-- The source's filter `decile >= 0` applied to the household rows (negative decile
ranks are dropped before grouping). -/
def filteredUnits (units : List HUnit) : List HUnit :=
  units.filter (fun u => decide (0 ≤ u.decile))

/-- The group of filtered rows whose decile rank equals `d` (a `groupby(decile)` group). -/
def decileGroup (units : List HUnit) (d : ℤ) : List HUnit :=
  (filteredUnits units).filter (fun u => u.decile == d)

/-- Per-decile relative change: `income_change.groupby(decile).sum() /
baseline_income_filtered.groupby(decile).sum()` for group `d`. -/
def relByDecile (units : List HUnit) (d : ℤ) : Option ℚ :=
  fdiv (((decileGroup units d).map (fun u => (u.refNet - u.baseNet) * u.weight)).sum)
       (((decileGroup units d).map (fun u => u.baseNet * u.weight)).sum)

/-- Per-decile average change: `income_change.groupby(decile).sum() /
baseline_income_filtered.groupby(decile).count()` for group `d` (`count` is the
weight sum of the group). -/
def avgByDecile (units : List HUnit) (d : ℤ) : Option ℚ :=
  fdiv (((decileGroup units d).map (fun u => (u.refNet - u.baseNet) * u.weight)).sum)
       (((decileGroup units d).map (fun u => u.weight)).sum)

/-- The keys of the decile dictionaries returned by `decile_impact`: the distinct
decile ranks surviving the `decile >= 0` filter. -/
def decileKeys (units : List HUnit) : List ℤ :=
  ((filteredUnits units).map (fun u => u.decile)).dedup

/-- The `relative` dictionary of `decile_impact`, as a key/value association list. -/
def decileImpactRel (units : List HUnit) : List (ℤ × Option ℚ) :=
  (decileKeys units).map (fun d => (d, relByDecile units d))

/-- The `average` dictionary of `decile_impact`, as a key/value association list. -/
def decileImpactAvg (units : List HUnit) : List (ℤ × Option ℚ) :=
  (decileKeys units).map (fun d => (d, avgByDecile units d))

/-- Result record of `decile_impact` (and of `wealth_decile_impact` when produced). -/
structure DecileImpact where
  relative : List (ℤ × Option ℚ)
  average : List (ℤ × Option ℚ)

/-- Embedding of `decile_impact`. -/
def decileImpact (baseline reform : SingleEconomy) : DecileImpact :=
  { relative := decileImpactRel (householdUnits baseline reform)
    average := decileImpactAvg (householdUnits baseline reform) }

/-- Embedding of `wealth_decile_impact`: `none` unless the country is `uk`, else the
same decile pipeline keyed on wealth decile ranks. -/
def wealthDecileImpact (baseline reform : SingleEconomy) (country_id : String) :
    Option DecileImpact :=
  if country_id = "uk" then
    some { relative := decileImpactRel (wealthHouseholdUnits baseline reform)
           average := decileImpactAvg (wealthHouseholdUnits baseline reform) }
  else none

/-- Per-unit proportional income change of the intra-decile aggregator, with
floor-protected (clamped to a minimum of 1) baseline and reform values:
`absolute_change = reform - baseline`, `capped_baseline = max(baseline, 1)`,
`capped_reform = max(reform, 1) + absolute_change`,
`income_change = (capped_reform - capped_baseline) / capped_baseline`. -/
def cappedIncomeChange (baseline reform : ℚ) : ℚ :=
  let absolute_change := reform - baseline
  let capped_baseline_income := max baseline 1
  let capped_reform_income := max reform 1 + absolute_change
  (capped_reform_income - capped_baseline_income) / capped_baseline_income

/-- The `income_change` value of one household row. -/
def unitChange (u : HUnit) : ℚ := cappedIncomeChange u.baseNet u.refNet

/-- Decile-membership mask `decile == i`. -/
def inDecile (i : ℤ) (u : HUnit) : Bool := u.decile == i

/-- Weighted people count of a masked selection:
`people[mask].sum() = Σ household_count_people · household_weight` over the mask. -/
def peopleSum (units : List HUnit) (mask : HUnit → Bool) : ℚ :=
  ((units.filter mask).map (fun u => u.people * u.weight)).sum

/-- The source's `people_in_both`: weighted people count of `in_decile & in_group`. -/
def people_in_both (units : List HUnit) (lower upper : Bnd) (i : ℤ) : ℚ :=
  peopleSum units (fun u => inDecile i u && inGroupQ lower upper (unitChange u))

/-- The source's `people_in_decile`: weighted people count of `in_decile`. -/
def people_in_decile (units : List HUnit) (i : ℤ) : ℚ :=
  peopleSum units (fun u => inDecile i u)

/-- Reported share of one (bucket, decile) cell: `0.0` when both weighted counts are
exactly zero, otherwise the float quotient `people_in_both / people_in_decile`. -/
def share (units : List HUnit) (lower upper : Bnd) (i : ℤ) : Option ℚ :=
  if people_in_decile units i = 0 ∧ people_in_both units lower upper i = 0 then some 0
  else fdiv (people_in_both units lower upper i) (people_in_decile units i)

/-- The source's `BOUNDS` list `[-np.inf, -0.05, -1e-3, 1e-3, 0.05, np.inf]`. -/
def BOUNDS : List Bnd :=
  [Bnd.negInf, Bnd.fin (-0.05), Bnd.fin (-0.001), Bnd.fin 0.001, Bnd.fin 0.05,
    Bnd.posInf]

/-- The source's `LABELS` list. -/
def LABELS : List String :=
  ["Lose more than 5%", "Lose less than 5%", "No change", "Gain less than 5%",
    "Gain more than 5%"]

/-- The `zip(BOUNDS[:-1], BOUNDS[1:], LABELS)` iteration of the bucket loop. -/
def bucketTriples : List ((Bnd × Bnd) × String) :=
  (BOUNDS.dropLast.zip BOUNDS.tail).zip LABELS

/-- The five bucket shares of a single decile `i` (the `i`-th entry of each of the
five `outcome_groups` lists). -/
def sharesForDecile (units : List HUnit) (i : ℤ) : List (Option ℚ) :=
  bucketTriples.map (fun t => share units t.1.1 t.1.2 i)

/-- Float addition lifted to the NaN-aware value model. -/
def optAdd : Option ℚ → Option ℚ → Option ℚ
  | some a, some b => some (a + b)
  | _, _ => none

/-- Float sum of a list of NaN-aware values. -/
def optSum (l : List (Option ℚ)) : Option ℚ := l.foldr optAdd (some 0)

/-- Result record of `intra_decile_impact` (and its wealth-decile variant): per bucket
label, the ten per-decile shares, plus the equal-weight across-decile averages. -/
structure IntraDecileImpact where
  deciles : List (String × List (Option ℚ))
  all : List (String × Option ℚ)

/-- Embedding of the body of `intra_decile_impact` over household rows: for each
bucket `(lower, upper, label)` and each decile `i in range(1, 11)`, the reported
share, and the `all` row `sum(outcome_groups[label]) / 10`. -/
def intraDecileImpactOfUnits (units : List HUnit) : IntraDecileImpact :=
  { deciles := bucketTriples.map (fun t =>
      (t.2, (List.range 10).map (fun k => share units t.1.1 t.1.2 ((k : ℤ) + 1))))
    all := bucketTriples.map (fun t =>
      (t.2, (optSum ((List.range 10).map
          (fun k => share units t.1.1 t.1.2 ((k : ℤ) + 1)))).map (fun s => s / 10))) }

/-- Embedding of `intra_decile_impact` (keyed on income decile). -/
def intraDecileImpact (baseline reform : SingleEconomy) : IntraDecileImpact :=
  intraDecileImpactOfUnits (householdUnits baseline reform)

/-- Embedding of `intra_wealth_decile_impact`: `none` unless the country is `uk`. -/
def intraWealthDecileImpact (baseline reform : SingleEconomy) (country_id : String) :
    Option IntraDecileImpact :=
  if country_id = "uk" then
    some (intraDecileImpactOfUnits (wealthHouseholdUnits baseline reform))
  else none

/-- A baseline/reform pair of float values (possibly NaN for an empty selection). -/
structure BRValues where
  baseline : Option ℚ
  reform : Option ℚ

/-- Male/female pair of baseline/reform values. -/
structure GenderBRValues where
  male : BRValues
  female : BRValues

/-- Payload of a populated `PovertyGenderBreakdown` model. -/
structure PovertyGenderValues where
  poverty : GenderBRValues
  deep_poverty : GenderBRValues

/-- Possible Python values returned for the poverty-by-gender field.  `pyNone`
models the Python `None`; `pyEmptyDict` models the literal `{}` the source returns
when the sex flag is absent; `model` is a populated breakdown. -/
inductive GenderResult where
  | pyNone
  | pyEmptyDict
  | model (v : PovertyGenderValues)

/-- One person row: baseline/reform poverty indicators, person weight and sex flag
(reform indicators are paired with the baseline weights, as in the source). -/
structure Person where
  in_poverty : ℚ
  in_deep_poverty : ℚ
  reform_in_poverty : ℚ
  reform_in_deep_poverty : ℚ
  weight : ℚ
  is_male : Bool

/-- Zip six parallel per-person arrays into a list of `Person` rows. -/
def mkPersons : List ℚ → List ℚ → List ℚ → List ℚ → List ℚ → List Bool → List Person
  | bp :: bps, bd :: bds, rp :: rps, rd :: rds, w :: ws, m :: ms =>
      ⟨bp, bd, rp, rd, w, m⟩ :: mkPersons bps bds rps rds ws ms
  | _, _, _, _, _, _ => []

/-- Weighted mean of a masked person selection: `series[mask].mean()`, i.e. the
float quotient of the weighted value sum by the weight sum (NaN when empty). -/
def wMean (persons : List Person) (value : Person → ℚ) (mask : Person → Bool) :
    Option ℚ :=
  fdiv (((persons.filter mask).map (fun p => value p * p.weight)).sum)
       (((persons.filter mask).map (fun p => p.weight)).sum)

/-- Embedding of `poverty_gender_breakdown`.  When `baseline.is_male` is absent the
source returns the literal `{}` (not `None`); otherwise it reports weighted poverty
and deep-poverty means for the male and female selections. -/
def povertyGenderBreakdown (baseline reform : SingleEconomy) : GenderResult :=
  match baseline.is_male with
  | none => GenderResult.pyEmptyDict
  | some males =>
    let persons := mkPersons baseline.person_in_poverty
      baseline.person_in_deep_poverty reform.person_in_poverty
      reform.person_in_deep_poverty baseline.person_weight males
    GenderResult.model
      { poverty :=
          { male := { baseline := wMean persons (fun p => p.in_poverty) (fun p => p.is_male)
                      reform := wMean persons (fun p => p.reform_in_poverty) (fun p => p.is_male) }
            female := { baseline := wMean persons (fun p => p.in_poverty) (fun p => !p.is_male)
                        reform := wMean persons (fun p => p.reform_in_poverty) (fun p => !p.is_male) } }
        deep_poverty :=
          { male := { baseline := wMean persons (fun p => p.in_deep_poverty) (fun p => p.is_male)
                      reform := wMean persons (fun p => p.reform_in_deep_poverty) (fun p => p.is_male) }
            female := { baseline := wMean persons (fun p => p.in_deep_poverty) (fun p => !p.is_male)
                        reform := wMean persons (fun p => p.reform_in_deep_poverty) (fun p => !p.is_male) } } }

/-- Region tally targets of one constituency in `uk_constituency_breakdown`: the list
starts as `["uk"]` and the first of the letters `E`, `S`, `W`, `N` contained in the
area code (checked in that order) appends the matching sub-region. -/
def regionsOf (code : List Char) : List String :=
  let regions := ["uk"]
  if code.contains 'E' then regions ++ ["england"]
  else if code.contains 'S' then regions ++ ["scotland"]
  else if code.contains 'W' then regions ++ ["wales"]
  else if code.contains 'N' then regions ++ ["northern_ireland"]
  else regions

/-- Sub-region selection as worded by the spec sentence for the geographic
aggregator: the sub-region determined by first-match single-character containment in
the order `E`→england, `S`→scotland, `W`→wales, `N`→northern_ireland, and no
sub-region when none of the four letters occurs.  Stated separately from `regionsOf`
(which is translated from the source) so the two can be compared. -/
def subRegionsSpec (code : List Char) : List String :=
  if code.contains 'E' then ["england"]
  else if code.contains 'S' then ["scotland"]
  else if code.contains 'W' then ["wales"]
  else if code.contains 'N' then ["northern_ireland"]
  else []

/-- The full-report shape assembled by the `"general"` branch of the orchestrator,
restricted to the sub-reports embedded in this development.  The remaining
sub-reports of the source record (detailed budget, inequality, poverty by age/race,
labor supply, constituency impact) depend on external collaborators (country
package data, remote weight matrices) that are out of scope for the claims and are
not part of the embedding. -/
structure EconomyComparison where
  budget : BudgetaryImpact
  decile : DecileImpact
  poverty_by_gender : GenderResult
  intra_decile : IntraDecileImpact
  wealth_decile : Option DecileImpact
  intra_wealth_decile : Option IntraDecileImpact

/-- The small report returned by the `"cliff"` branch. -/
structure CliffComparison where
  baseline_cliff_gap : ℚ
  baseline_cliff_share : ℚ
  reform_cliff_gap : ℚ
  reform_cliff_share : ℚ

/-- Possible non-raising outcomes of `calculate_economy_comparison`: a full report,
a cliff report, or the implicit Python `None` produced when the baseline economy
type tag matches neither branch. -/
inductive ComparisonResult where
  | general (r : EconomyComparison)
  | cliff (c : CliffComparison)
  | pyNone

/-- A comparison simulation as consumed by the orchestrator: the comparison flag,
the country option, and the two pre-computed per-scenario economies (the production
of the economies themselves is an external collaborator). -/
structure Simulation where
  is_comparison : Bool
  country : String
  baselineEconomy : SingleEconomy
  reformEconomy : SingleEconomy

/-- Embedding of the top-level `calculate_economy_comparison` orchestrator: raises
(`Except.error`) on a non-comparison simulation, assembles the full report when the
baseline type tag is `"general"`, the cliff report when it is `"cliff"`, and falls
off the end of the function (Python's implicit `None`) otherwise. -/
def calculateEconomyComparison (simulation : Simulation) :
    Except String ComparisonResult :=
  if simulation.is_comparison = false then
    Except.error "Simulation must be a comparison simulation."
  else
    let baseline := simulation.baselineEconomy
    let reform := simulation.reformEconomy
    let country_id := simulation.country
    if baseline.type = "general" then
      Except.ok (ComparisonResult.general
        { budget := budgetaryImpact baseline reform
          decile := decileImpact baseline reform
          poverty_by_gender := povertyGenderBreakdown baseline reform
          intra_decile := intraDecileImpact baseline reform
          wealth_decile := wealthDecileImpact baseline reform country_id
          intra_wealth_decile := intraWealthDecileImpact baseline reform country_id })
    else if baseline.type = "cliff" then
      Except.ok (ComparisonResult.cliff
        { baseline_cliff_gap := baseline.cliff_gap
          baseline_cliff_share := baseline.cliff_share
          reform_cliff_gap := reform.cliff_gap
          reform_cliff_share := reform.cliff_share })
    else
      Except.ok ComparisonResult.pyNone

/-- A degenerate one-household economy: net income 0, weight 1, decile 1, no sex
flag.  Used as a concrete input for the degenerate-arithmetic claims. -/
def econ0 : SingleEconomy :=
  { type := "general", total_tax := 0, total_state_tax := 0, total_benefits := 0,
    total_net_income := 0, household_net_income := [0], household_weight := [1],
    household_count_people := [1], household_income_decile := [1],
    household_wealth_decile := [1], person_in_poverty := [],
    person_in_deep_poverty := [], person_weight := [], is_male := none,
    cliff_gap := 0, cliff_share := 0 }

/-- A non-degenerate one-household economy: net income 100, weight 1, two people,
income decile 3, wealth decile 5. -/
def econ1 : SingleEconomy :=
  { type := "general", total_tax := 10, total_state_tax := 1, total_benefits := 5,
    total_net_income := 100, household_net_income := [100], household_weight := [1],
    household_count_people := [2], household_income_decile := [3],
    household_wealth_decile := [5], person_in_poverty := [0],
    person_in_deep_poverty := [0], person_weight := [1], is_male := some [true],
    cliff_gap := 0, cliff_share := 0 }

/-- A one-household economy whose income decile rank is 0: nonnegative, hence not
filtered out, yet outside 1..10. -/
def econD0 : SingleEconomy :=
  { econ1 with household_income_decile := [0] }

/-- An economy whose type tag is neither of the two recognised branch tags. -/
def econOther : SingleEconomy :=
  { econ0 with type := "other" }

/-- A comparison simulation whose baseline economy carries the unrecognised type tag. -/
def simOther : Simulation :=
  { is_comparison := true, country := "us", baselineEconomy := econOther,
    reformEconomy := econOther }

/-- A one-row unit list with positive weight and people count, decile 1. -/
def unitsW : List HUnit := [{ baseNet := 10, refNet := 10, weight := 1, people := 1, decile := 1 }]

/-- A one-household economy whose only household has weight 0 and sits in income
decile 1: the decile-1 group is reported but its weight sum is 0. -/
def econW0 : SingleEconomy :=
  { econ1 with household_weight := [0], household_income_decile := [1] }

lemma bucketTriples_eq :
    bucketTriples =
      [((Bnd.negInf, Bnd.fin (-0.05)), "Lose more than 5%"),
       ((Bnd.fin (-0.05), Bnd.fin (-0.001)), "Lose less than 5%"),
       ((Bnd.fin (-0.001), Bnd.fin 0.001), "No change"),
       ((Bnd.fin 0.001, Bnd.fin 0.05), "Gain less than 5%"),
       ((Bnd.fin 0.05, Bnd.posInf), "Gain more than 5%")] := rfl

lemma bucket_flags (x : ℚ) :
    (inGroupQ Bnd.negInf (Bnd.fin (-0.05)) x = true ∧
     inGroupQ (Bnd.fin (-0.05)) (Bnd.fin (-0.001)) x = false ∧
     inGroupQ (Bnd.fin (-0.001)) (Bnd.fin 0.001) x = false ∧
     inGroupQ (Bnd.fin 0.001) (Bnd.fin 0.05) x = false ∧
     inGroupQ (Bnd.fin 0.05) Bnd.posInf x = false) ∨
    (inGroupQ Bnd.negInf (Bnd.fin (-0.05)) x = false ∧
     inGroupQ (Bnd.fin (-0.05)) (Bnd.fin (-0.001)) x = true ∧
     inGroupQ (Bnd.fin (-0.001)) (Bnd.fin 0.001) x = false ∧
     inGroupQ (Bnd.fin 0.001) (Bnd.fin 0.05) x = false ∧
     inGroupQ (Bnd.fin 0.05) Bnd.posInf x = false) ∨
    (inGroupQ Bnd.negInf (Bnd.fin (-0.05)) x = false ∧
     inGroupQ (Bnd.fin (-0.05)) (Bnd.fin (-0.001)) x = false ∧
     inGroupQ (Bnd.fin (-0.001)) (Bnd.fin 0.001) x = true ∧
     inGroupQ (Bnd.fin 0.001) (Bnd.fin 0.05) x = false ∧
     inGroupQ (Bnd.fin 0.05) Bnd.posInf x = false) ∨
    (inGroupQ Bnd.negInf (Bnd.fin (-0.05)) x = false ∧
     inGroupQ (Bnd.fin (-0.05)) (Bnd.fin (-0.001)) x = false ∧
     inGroupQ (Bnd.fin (-0.001)) (Bnd.fin 0.001) x = false ∧
     inGroupQ (Bnd.fin 0.001) (Bnd.fin 0.05) x = true ∧
     inGroupQ (Bnd.fin 0.05) Bnd.posInf x = false) ∨
    (inGroupQ Bnd.negInf (Bnd.fin (-0.05)) x = false ∧
     inGroupQ (Bnd.fin (-0.05)) (Bnd.fin (-0.001)) x = false ∧
     inGroupQ (Bnd.fin (-0.001)) (Bnd.fin 0.001) x = false ∧
     inGroupQ (Bnd.fin 0.001) (Bnd.fin 0.05) x = false ∧
     inGroupQ (Bnd.fin 0.05) Bnd.posInf x = true) := by
  rcases le_or_lt x (-0.05) with h1 | h1
  · have n2 : ¬((-0.001 : ℚ) < x) := by rw [not_lt]; linarith
    have n3 : ¬((0.001 : ℚ) < x) := by rw [not_lt]; linarith
    have n4 : ¬((0.05 : ℚ) < x) := by rw [not_lt]; linarith
    exact Or.inl (by simp [inGroupQ, boundLt, boundLe, h1, h1.not_lt, n2, n3, n4])
  · rcases le_or_lt x (-0.001) with h2 | h2
    · have n3 : ¬((0.001 : ℚ) < x) := by rw [not_lt]; linarith
      have n4 : ¬((0.05 : ℚ) < x) := by rw [not_lt]; linarith
      exact Or.inr (Or.inl
        (by simp [inGroupQ, boundLt, boundLe, h1, h1.not_le, h2, h2.not_lt, n3, n4]))
    · rcases le_or_lt x 0.001 with h3 | h3
      · have p1 : ¬(x ≤ (-0.05 : ℚ)) := by rw [not_le]; linarith
        have n4 : ¬((0.05 : ℚ) < x) := by rw [not_lt]; linarith
        exact Or.inr (Or.inr (Or.inl
          (by simp [inGroupQ, boundLt, boundLe, p1, h2, h2.not_le, h3, h3.not_lt, n4])))
      · rcases le_or_lt x 0.05 with h4 | h4
        · have p1 : ¬(x ≤ (-0.05 : ℚ)) := by rw [not_le]; linarith
          have p2 : ¬(x ≤ (-0.001 : ℚ)) := by rw [not_le]; linarith
          exact Or.inr (Or.inr (Or.inr (Or.inl
            (by simp [inGroupQ, boundLt, boundLe, p1, p2, h3, h3.not_le, h4, h4.not_lt]))))
        · have p1 : ¬(x ≤ (-0.05 : ℚ)) := by rw [not_le]; linarith
          have p2 : ¬(x ≤ (-0.001 : ℚ)) := by rw [not_le]; linarith
          have p3 : ¬(x ≤ (0.001 : ℚ)) := by rw [not_le]; linarith
          exact Or.inr (Or.inr (Or.inr (Or.inr
            (by simp [inGroupQ, boundLt, boundLe, p1, p2, p3, h4, h4.not_le]))))

lemma bucket_filter_length (x : ℚ) :
    (bucketTriples.filter (fun t => inGroupQ t.1.1 t.1.2 x)).length = 1 := by
  rcases bucket_flags x with ⟨a, b, c, d, e⟩ | ⟨a, b, c, d, e⟩ | ⟨a, b, c, d, e⟩ |
    ⟨a, b, c, d, e⟩ | ⟨a, b, c, d, e⟩ <;>
    simp [bucketTriples_eq, List.filter, a, b, c, d, e]

lemma peopleSum_nil (mask : HUnit → Bool) : peopleSum [] mask = 0 := rfl

lemma peopleSum_cons (u : HUnit) (l : List HUnit) (mask : HUnit → Bool) :
    peopleSum (u :: l) mask =
      (if mask u then u.people * u.weight else 0) + peopleSum l mask := by
  by_cases h : mask u <;> simp [peopleSum, List.filter_cons, h]

lemma peopleSum_nonneg (units : List HUnit) (mask : HUnit → Bool)
    (h : ∀ u ∈ units, 0 ≤ u.people ∧ 0 ≤ u.weight) : 0 ≤ peopleSum units mask := by
  apply List.sum_nonneg
  intro x hx
  rcases List.mem_map.mp hx with ⟨u, hu, rfl⟩
  have hu' : u ∈ units := List.mem_of_mem_filter hu
  exact mul_nonneg (h u hu').1 (h u hu').2

lemma peopleSum_conj_le (units : List HUnit) (m1 m2 : HUnit → Bool)
    (h : ∀ u ∈ units, 0 ≤ u.people ∧ 0 ≤ u.weight) :
    peopleSum units (fun u => m1 u && m2 u) ≤ peopleSum units m1 := by
  induction units with
  | nil => simp [peopleSum_nil]
  | cons u rest ih =>
    have hrest := ih (fun v hv => h v (List.mem_cons_of_mem _ hv))
    have hu := h u (List.mem_cons_self u rest)
    rw [peopleSum_cons, peopleSum_cons]
    by_cases h1 : m1 u
    · by_cases h2 : m2 u
      · simp only [h1, h2, Bool.and_self, if_pos]
        linarith
      · simp only [h1, h2, Bool.and_false, if_pos, if_neg]
        have : (0 : ℚ) ≤ u.people * u.weight := mul_nonneg hu.1 hu.2
        simp only [Bool.false_eq_true, if_false]
        linarith
    · simp only [h1, Bool.false_and, Bool.false_eq_true, if_false]
      linarith

lemma people_partition (units : List HUnit) (i : ℤ) :
    (bucketTriples.map (fun t => people_in_both units t.1.1 t.1.2 i)).sum =
      people_in_decile units i := by
  induction units with
  | nil =>
    simp [bucketTriples_eq, people_in_both, people_in_decile, peopleSum_nil]
  | cons u rest ih =>
    have hcons : ∀ lo hi : Bnd, people_in_both (u :: rest) lo hi i =
        (if inDecile i u && inGroupQ lo hi (unitChange u) then u.people * u.weight
          else 0) + people_in_both rest lo hi i := by
      intro lo hi
      exact peopleSum_cons u rest _
    have hdc : people_in_decile (u :: rest) i =
        (if inDecile i u then u.people * u.weight else 0) +
          people_in_decile rest i := peopleSum_cons u rest _
    rw [hdc]
    simp only [bucketTriples_eq, List.map_cons, List.map_nil, List.sum_cons,
      List.sum_nil, hcons] at ih ⊢
    by_cases hd : inDecile i u
    · rcases bucket_flags (unitChange u) with ⟨a, b, c, d, e⟩ | ⟨a, b, c, d, e⟩ |
        ⟨a, b, c, d, e⟩ | ⟨a, b, c, d, e⟩ | ⟨a, b, c, d, e⟩ <;>
        · simp only [hd, a, b, c, d, e, Bool.true_and, Bool.and_false,
            Bool.and_true, if_pos, if_neg, Bool.false_eq_true, if_false, if_true]
          linarith
    · simp only [hd, Bool.false_and, Bool.false_eq_true, if_false]
      linarith

lemma share_eq_of_ne (units : List HUnit) (lower upper : Bnd) (i : ℤ)
    (hd : people_in_decile units i ≠ 0) :
    share units lower upper i =
      some (people_in_both units lower upper i / people_in_decile units i) := by
  simp [share, fdiv, hd]

lemma share_bounds (units : List HUnit) (lower upper : Bnd) (i : ℤ)
    (hnn : ∀ u ∈ units, 0 ≤ u.people ∧ 0 ≤ u.weight)
    (hd : people_in_decile units i ≠ 0) :
    ∃ q, share units lower upper i = some q ∧ 0 ≤ q ∧ q ≤ 1 := by
  have hpd : 0 ≤ people_in_decile units i := peopleSum_nonneg _ _ hnn
  have hpos : 0 < people_in_decile units i := lt_of_le_of_ne hpd (Ne.symm hd)
  have hpb : 0 ≤ people_in_both units lower upper i := peopleSum_nonneg _ _ hnn
  have hle : people_in_both units lower upper i ≤ people_in_decile units i :=
    peopleSum_conj_le units _ _ hnn
  refine ⟨people_in_both units lower upper i / people_in_decile units i,
    share_eq_of_ne units lower upper i hd, div_nonneg hpb hpd, ?_⟩
  exact (div_le_one hpos).mpr hle

lemma mkUnits_self (xs : List ℚ) :
    ∀ (ws ps : List ℚ) (ds : List ℤ), ∀ u ∈ mkUnits xs xs ws ps ds,
      u.refNet = u.baseNet := by
  induction xs with
  | nil => intro ws ps ds u hu; simp [mkUnits] at hu
  | cons x xs ih =>
    intro ws ps ds u hu
    cases ws with
    | nil => simp [mkUnits] at hu
    | cons w ws =>
      cases ps with
      | nil => simp [mkUnits] at hu
      | cons p ps =>
        cases ds with
        | nil => simp [mkUnits] at hu
        | cons d ds =>
          simp only [mkUnits, List.mem_cons] at hu
          rcases hu with rfl | hu
          · rfl
          · exact ih ws ps ds u hu

lemma cappedIncomeChange_self (b : ℚ) : cappedIncomeChange b b = 0 := by
  simp [cappedIncomeChange]

lemma bucket_of_zero :
    (bucketTriples.filter (fun t => inGroupQ t.1.1 t.1.2 0)).map (fun t => t.2) =
      ["No change"] := by
  simp [bucketTriples_eq, inGroupQ, boundLt, boundLe, List.filter]
  norm_num

lemma decileGroup_subset (units : List HUnit) (d : ℤ) (u : HUnit)
    (hu : u ∈ decileGroup units d) : u ∈ units := by
  have h1 := List.mem_of_mem_filter hu
  exact List.mem_of_mem_filter h1

lemma decileGroup_cons_neg (units : List HUnit) (u0 : HUnit) (d : ℤ)
    (hneg : u0.decile < 0) : decileGroup (u0 :: units) d = decileGroup units d := by
  simp [decileGroup, filteredUnits, List.filter_cons, hneg.not_le]

lemma decileGroup_eq_filter (units : List HUnit) (d : ℤ) :
    decileGroup units d =
      units.filter (fun u => decide (0 ≤ u.decile) && (u.decile == d)) := by
  rw [decileGroup, filteredUnits, List.filter_filter]
  apply List.filter_congr
  intro u _
  exact Bool.and_comm _ _

lemma decileKeys_valid (units : List HUnit)
    (h : ∀ u ∈ units, u.decile < 0 ∨ (1 ≤ u.decile ∧ u.decile ≤ 10)) :
    ∀ k ∈ decileKeys units, 1 ≤ k ∧ k ≤ 10 := by
  intro k hk
  rw [decileKeys, List.mem_dedup] at hk
  rcases List.mem_map.mp hk with ⟨u, hu, rfl⟩
  rcases List.mem_filter.mp hu with ⟨hmem, hval⟩
  have h0 : (0 : ℤ) ≤ u.decile := of_decide_eq_true hval
  rcases h u hmem with hneg | hvalid
  · omega
  · exact hvalid

lemma decileImpactRel_keys (units : List HUnit) :
    (decileImpactRel units).map Prod.fst = decileKeys units := by
  simp only [decileImpactRel, List.map_map]
  exact List.map_id _

lemma decileImpactAvg_keys (units : List HUnit) :
    (decileImpactAvg units).map Prod.fst = decileKeys units := by
  simp only [decileImpactAvg, List.map_map]
  exact List.map_id _

/-- C1: in the intra-decile mobility aggregator, every unit's proportional income
change is computed with floor-protected values:
`income_change = (max(reform, 1) + (reform_raw - baseline_raw) - max(baseline, 1)) /
max(baseline, 1)`, where the added absolute change uses the raw unclamped incomes. -/
theorem C1_intra_decile_income_change_formula (u : HUnit) :
    unitChange u =
      (max u.refNet 1 + (u.refNet - u.baseNet) - max u.baseNet 1) /
        max u.baseNet 1 := rfl

/-- C2: every possible `income_change` value is classified into exactly one of the
five buckets of the intra-decile aggregator, whose membership tests are the
half-open intervals (with inclusive upper boundary) (-inf, -0.05] Lose more than
5%, (-0.05, -0.001] Lose less than 5%, (-0.001, 0.001] No change, (0.001, 0.05]
Gain less than 5%, and (0.05, inf) Gain more than 5%. -/
theorem C2_bucket_classification (x : ℚ) :
    (bucketTriples.filter (fun t => inGroupQ t.1.1 t.1.2 x)).length = 1 ∧
    (inGroupQ Bnd.negInf (Bnd.fin (-0.05)) x = true ↔ x ≤ -0.05) ∧
    (inGroupQ (Bnd.fin (-0.05)) (Bnd.fin (-0.001)) x = true ↔
      -0.05 < x ∧ x ≤ -0.001) ∧
    (inGroupQ (Bnd.fin (-0.001)) (Bnd.fin 0.001) x = true ↔
      -0.001 < x ∧ x ≤ 0.001) ∧
    (inGroupQ (Bnd.fin 0.001) (Bnd.fin 0.05) x = true ↔ 0.001 < x ∧ x ≤ 0.05) ∧
    (inGroupQ (Bnd.fin 0.05) Bnd.posInf x = true ↔ 0.05 < x) := by
  refine ⟨bucket_filter_length x, ?_, ?_, ?_, ?_, ?_⟩ <;>
    simp [inGroupQ, boundLt, boundLe]

/-- C3: in the intra-decile mobility aggregator, whenever both the weighted people
count of a (bucket, decile) cell and the weighted people count of the decile are
exactly zero the reported share is 0.0 (not NaN), and for nonnegative people counts
and weights a degenerate (zero-weight) decile always yields a defined value — no
cell of the report is NaN or infinite, so no exception or poisoned value aborts the
comparison. -/
theorem C3_zero_division_policy (units : List HUnit) (lower upper : Bnd) (i : ℤ)
    (hnn : ∀ u ∈ units, 0 ≤ u.people ∧ 0 ≤ u.weight) :
    (people_in_decile units i = 0 ∧ people_in_both units lower upper i = 0 →
      share units lower upper i = some 0) ∧
    (share units lower upper i).isSome = true := by
  constructor
  · rintro ⟨h1, h2⟩
    simp [share, h1, h2]
  · by_cases hp : people_in_decile units i = 0
    · have hle : people_in_both units lower upper i ≤ people_in_decile units i :=
        peopleSum_conj_le units _ _ hnn
      have hge : 0 ≤ people_in_both units lower upper i :=
        peopleSum_nonneg _ _ hnn
      have hb : people_in_both units lower upper i = 0 :=
        le_antisymm (hp ▸ hle) hge
      simp [share, hp, hb]
    · simp [share, fdiv, hp]

/-- Witness for C3 at a concrete degenerate input: the empty population has zero
weighted counts for decile 1 and every bucket, and the reported share is 0.0. -/
theorem C3_witness :
    share [] Bnd.negInf (Bnd.fin (-0.05)) 1 = some 0 ∧
    (share [] Bnd.negInf (Bnd.fin (-0.05)) 1).isSome = true := by
  have h := C3_zero_division_policy [] Bnd.negInf (Bnd.fin (-0.05)) 1 (by simp)
  exact ⟨h.1 ⟨rfl, rfl⟩, h.2⟩

/-- C4: in the income-decile aggregator, a unit with a negative decile rank is
excluded (adding it changes nothing), and for every decile the reported relative
change is the weighted sum of per-unit net-income change over the valid rows of the
decile divided by the weighted sum of baseline net income there, while the reported
average change divides the same numerator by the weighted count (weight sum) of the
decile's rows. -/
theorem C4_decile_impact_formulas (units : List HUnit) (u0 : HUnit) (d : ℤ)
    (hneg : u0.decile < 0) :
    relByDecile (u0 :: units) d = relByDecile units d ∧
    avgByDecile (u0 :: units) d = avgByDecile units d ∧
    relByDecile units d =
      fdiv (((units.filter (fun u => decide (0 ≤ u.decile) && (u.decile == d))).map
              (fun u => (u.refNet - u.baseNet) * u.weight)).sum)
           (((units.filter (fun u => decide (0 ≤ u.decile) && (u.decile == d))).map
              (fun u => u.baseNet * u.weight)).sum) ∧
    avgByDecile units d =
      fdiv (((units.filter (fun u => decide (0 ≤ u.decile) && (u.decile == d))).map
              (fun u => (u.refNet - u.baseNet) * u.weight)).sum)
           (((units.filter (fun u => decide (0 ≤ u.decile) && (u.decile == d))).map
              (fun u => u.weight)).sum) := by
  refine ⟨?_, ?_, ?_, ?_⟩
  · rw [relByDecile, relByDecile, decileGroup_cons_neg units u0 d hneg]
  · rw [avgByDecile, avgByDecile, decileGroup_cons_neg units u0 d hneg]
  · rw [relByDecile, decileGroup_eq_filter]
  · rw [avgByDecile, decileGroup_eq_filter]

/-- Witness for C4 at a concrete input: a negative-rank row prepended to a
one-household decile-1 population is ignored, and the reported relative change is
(10·1)/(100·1) = some 0.1 by the stated formulas. -/
theorem C4_witness :
    relByDecile ((⟨5, 7, 3, 1, -1⟩ : HUnit) :: [(⟨100, 110, 1, 1, 1⟩ : HUnit)]) 1 =
      relByDecile [(⟨100, 110, 1, 1, 1⟩ : HUnit)] 1 ∧
    relByDecile [(⟨100, 110, 1, 1, 1⟩ : HUnit)] 1 = some 0.1 := by
  have h := C4_decile_impact_formulas [(⟨100, 110, 1, 1, 1⟩ : HUnit)]
    (⟨5, 7, 3, 1, -1⟩ : HUnit) 1 (by norm_num)
  refine ⟨h.1, ?_⟩
  rw [h.2.2.1]
  simp [List.filter, fdiv]
  norm_num

lemma five_div_sum (a1 a2 a3 a4 a5 pd : ℚ) (hd : pd ≠ 0)
    (hsum : a1 + (a2 + (a3 + (a4 + (a5 + 0)))) = pd) :
    a1 / pd + (a2 / pd + (a3 / pd + (a4 / pd + (a5 / pd + 0)))) = 1 := by
  have h : a1 / pd + (a2 / pd + (a3 / pd + (a4 / pd + (a5 / pd + 0)))) =
      (a1 + (a2 + (a3 + (a4 + (a5 + 0))))) / pd := by ring
  rw [h, hsum, div_self hd]

/-- C5 counterexample: the claim fails as stated.  On the empty population (reform
equal to baseline), decile 1 is one of the ten reported deciles, every one of its
five bucket shares is 0.0 by the explicit zero-division policy, and their sum is 0,
not 1. -/
theorem C5_counterexample :
    optSum (sharesForDecile ([] : List HUnit) 1) = some 0 ∧
    some (0 : ℚ) ≠ some (1 : ℚ) := by
  constructor
  · simp [optSum, sharesForDecile, share, people_in_decile, people_in_both,
      peopleSum, bucketTriples_eq, optAdd, List.filter]
  · simp

/-- C5 (amended): for every decile whose weighted people count is nonzero — given
nonnegative people counts and weights — the five intra-decile bucket shares are all
defined, each lies in [0, 1], and they sum to exactly 1; a decile with zero weighted
people count instead reports five shares of 0.0, which sum to 0. -/
theorem C5_shares_sum_to_one (units : List HUnit) (i : ℤ)
    (hnn : ∀ u ∈ units, 0 ≤ u.people ∧ 0 ≤ u.weight)
    (hd : people_in_decile units i ≠ 0) :
    optSum (sharesForDecile units i) = some 1 ∧
    ∀ s ∈ sharesForDecile units i, ∃ q, s = some q ∧ 0 ≤ q ∧ q ≤ 1 := by
  constructor
  · have e : ∀ lo hi : Bnd, share units lo hi i =
        some (people_in_both units lo hi i / people_in_decile units i) :=
      fun lo hi => share_eq_of_ne units lo hi i hd
    have hpart := people_partition units i
    simp only [bucketTriples_eq, List.map_cons, List.map_nil, List.sum_cons,
      List.sum_nil] at hpart
    simp only [sharesForDecile, bucketTriples_eq, List.map_cons, List.map_nil, e,
      optSum, List.foldr, optAdd]
    rw [Option.some_inj]
    exact five_div_sum _ _ _ _ _ _ hd hpart
  · intro s hs
    rw [sharesForDecile] at hs
    rcases List.mem_map.mp hs with ⟨t, _, rfl⟩
    exact share_bounds units t.1.1 t.1.2 i hnn hd

/-- Witness for C5 at a concrete input: one household of weight 1 with one person in
decile 1 gives a nonzero decile people count, a share sum of exactly 1 and all five
shares within [0, 1]. -/
theorem C5_witness :
    optSum (sharesForDecile unitsW 1) = some 1 ∧
    ∀ s ∈ sharesForDecile unitsW 1, ∃ q, s = some q ∧ 0 ≤ q ∧ q ≤ 1 := by
  apply C5_shares_sum_to_one unitsW 1
  · intro u hu
    simp only [unitsW, List.mem_singleton] at hu
    subst hu
    norm_num
  · simp [people_in_decile, peopleSum, unitsW, inDecile, List.filter]

/-- C6 counterexample: the claim fails as stated for arbitrary inputs.  A household
with decile rank 0 survives the `decile >= 0` filter, so the income-decile relative
map of `decile_impact` has key 0, which is not between 1 and 10. -/
theorem C6_counterexample :
    (decileImpact econD0 econD0).relative.map Prod.fst = [0] ∧ ¬(1 ≤ (0 : ℤ)) := by
  constructor
  · have h : (decileImpact econD0 econD0).relative =
        decileImpactRel (householdUnits econD0 econD0) := rfl
    rw [h, decileImpactRel_keys]
    simp [decileKeys, filteredUnits, householdUnits, econD0, econ1, mkUnits,
      List.filter, List.dedup]
  · decide

/-- C6 (amended): whenever every row's decile rank is either negative (excluded) or
in 1..10 — the documented rank domain — the keys of the relative and average maps of
the income-decile aggregator, and of the wealth-decile aggregator when it is
produced, are integers between 1 and 10 inclusive.  A nonnegative rank outside
1..10, such as 0, is not filtered out and would appear as a key. -/
theorem C6_decile_map_keys (b r : SingleEconomy)
    (h1 : ∀ u ∈ householdUnits b r, u.decile < 0 ∨ (1 ≤ u.decile ∧ u.decile ≤ 10))
    (h2 : ∀ u ∈ wealthHouseholdUnits b r,
      u.decile < 0 ∨ (1 ≤ u.decile ∧ u.decile ≤ 10)) :
    (∀ k ∈ (decileImpact b r).relative.map Prod.fst, 1 ≤ k ∧ k ≤ 10) ∧
    (∀ k ∈ (decileImpact b r).average.map Prod.fst, 1 ≤ k ∧ k ≤ 10) ∧
    ∀ di ∈ wealthDecileImpact b r "uk",
      (∀ k ∈ di.relative.map Prod.fst, 1 ≤ k ∧ k ≤ 10) ∧
      (∀ k ∈ di.average.map Prod.fst, 1 ≤ k ∧ k ≤ 10) := by
  refine ⟨?_, ?_, ?_⟩
  · have h : (decileImpact b r).relative = decileImpactRel (householdUnits b r) := rfl
    rw [h, decileImpactRel_keys]
    exact decileKeys_valid _ h1
  · have h : (decileImpact b r).average = decileImpactAvg (householdUnits b r) := rfl
    rw [h, decileImpactAvg_keys]
    exact decileKeys_valid _ h1
  · intro di hdi
    simp only [wealthDecileImpact, if_pos] at hdi
    rw [Option.mem_def, Option.some_inj] at hdi
    subst hdi
    constructor
    · rw [decileImpactRel_keys]
      exact decileKeys_valid _ h2
    · rw [decileImpactAvg_keys]
      exact decileKeys_valid _ h2

/-- Witness for C6 at a concrete input: a one-household economy with income decile 3
and wealth decile 5 satisfies the rank-domain hypotheses, and all reported decile
map keys lie in 1..10. -/
theorem C6_witness :
    (∀ k ∈ (decileImpact econ1 econ1).relative.map Prod.fst, 1 ≤ k ∧ k ≤ 10) ∧
    (∀ k ∈ (decileImpact econ1 econ1).average.map Prod.fst, 1 ≤ k ∧ k ≤ 10) ∧
    ∀ di ∈ wealthDecileImpact econ1 econ1 "uk",
      (∀ k ∈ di.relative.map Prod.fst, 1 ≤ k ∧ k ≤ 10) ∧
      (∀ k ∈ di.average.map Prod.fst, 1 ≤ k ∧ k ≤ 10) := by
  apply C6_decile_map_keys econ1 econ1
  · intro u hu
    simp only [householdUnits, econ1, mkUnits, List.mem_singleton] at hu
    subst hu
    right
    exact ⟨by decide, by decide⟩
  · intro u hu
    simp only [wealthHouseholdUnits, econ1, mkUnits, List.mem_singleton] at hu
    subst hu
    right
    exact ⟨by decide, by decide⟩

/-- C7: when the baseline economy's sex flag is absent, `poverty_gender_breakdown`
returns the literal empty dict `{}`, which is not the Python `None` the spec
prescribes (the report field for this sub-report is a non-nullable model, so the
empty dict cannot stand in for a null). -/
theorem C7_gender_flag_absent (b r : SingleEconomy) (h : b.is_male = none) :
    povertyGenderBreakdown b r = GenderResult.pyEmptyDict ∧
    GenderResult.pyEmptyDict ≠ GenderResult.pyNone := by
  constructor
  · simp [povertyGenderBreakdown, h]
  · intro hx
    cases hx

/-- Witness for C7 at a concrete input: the degenerate economy with `is_male`
absent produces the empty dict, not a null. -/
theorem C7_witness :
    povertyGenderBreakdown econ0 econ0 = GenderResult.pyEmptyDict ∧
    GenderResult.pyEmptyDict ≠ GenderResult.pyNone :=
  C7_gender_flag_absent econ0 econ0 rfl

/-- C8 counterexample: the claim fails as stated.  An area code containing none of
the letters E, S, W, N (here the code "0") is tallied into the nationwide region
only — there is no sub-region at all, so it is not tallied into exactly one
sub-region. -/
theorem C8_counterexample :
    regionsOf ['0'] = ["uk"] ∧ ¬∃ r : String, regionsOf ['0'] = ["uk", r] := by
  have h : regionsOf ['0'] = ["uk"] := by simp [regionsOf, List.contains]
  refine ⟨h, ?_⟩
  rintro ⟨r, hr⟩
  rw [h] at hr
  simp at hr

/-- C8 (amended): every area is tallied into the nationwide region plus at most one
sub-region, chosen by single-character containment in the area code, first match
winning in the order E→england, S→scotland, W→wales, N→northern_ireland; an area
code containing none of the four letters is tallied into the nationwide region
only. -/
theorem C8_region_tally (code : List Char) :
    regionsOf code = "uk" :: subRegionsSpec code ∧
    (subRegionsSpec code = [] ∨
      ∃ r, subRegionsSpec code = [r] ∧
        (r = "england" ∨ r = "scotland" ∨ r = "wales" ∨ r = "northern_ireland")) := by
  constructor
  · simp only [regionsOf, subRegionsSpec]
    split_ifs <;> rfl
  · simp only [subRegionsSpec]
    split_ifs
    · exact Or.inr ⟨"england", rfl, Or.inl rfl⟩
    · exact Or.inr ⟨"scotland", rfl, Or.inr (Or.inl rfl)⟩
    · exact Or.inr ⟨"wales", rfl, Or.inr (Or.inr (Or.inl rfl))⟩
    · exact Or.inr ⟨"northern_ireland", rfl, Or.inr (Or.inr (Or.inr rfl))⟩
    · exact Or.inl rfl

/-- C9 counterexample: the claim fails as stated.  Comparing the degenerate economy
`econ0` (one household, baseline net income 0, weight 1, decile 1) with itself —
reform equal to baseline in every field — the reported decile-1 relative change is
NaN (`0/0`, the decile's weighted baseline income sums to zero); and comparing
`econW0` (one household of weight 0 in decile 1) with itself, the reported decile-1
average change is NaN (the decile's weight sum is zero).  Neither is the 0.0 the
claim requires. -/
theorem C9_counterexample :
    decileImpactRel (householdUnits econ0 econ0) = [(1, (none : Option ℚ))] ∧
    decileImpactAvg (householdUnits econW0 econW0) = [(1, (none : Option ℚ))] ∧
    (none : Option ℚ) ≠ some (0 : ℚ) := by
  refine ⟨?_, ?_, by simp⟩
  · simp [decileImpactRel, decileKeys, filteredUnits, householdUnits, econ0,
      mkUnits, relByDecile, decileGroup, fdiv, List.filter, List.dedup]
  · simp [decileImpactAvg, decileKeys, filteredUnits, householdUnits, econW0,
      econ1, mkUnits, avgByDecile, decileGroup, fdiv, List.filter, List.dedup]

/-- C9 (amended): when the reform economy equals the baseline in every field, all
four budget impact fields are exactly 0, every unit's intra-decile bucket
classification is "No change", and, for every decile, the relative change is
exactly 0.0 whenever the decile's weighted baseline income sum is nonzero and the
average change is exactly 0.0 whenever the decile's weight sum is nonzero; a zero
sum in the respective denominator yields NaN instead. -/
theorem C9_zero_change (e : SingleEconomy) (d : ℤ) :
    (budgetaryImpact e e).tax_revenue_impact = 0 ∧
    (budgetaryImpact e e).state_tax_revenue_impact = 0 ∧
    (budgetaryImpact e e).benefit_spending_impact = 0 ∧
    (budgetaryImpact e e).budgetary_impact = 0 ∧
    (∀ u ∈ householdUnits e e,
      (bucketTriples.filter (fun t => inGroupQ t.1.1 t.1.2 (unitChange u))).map
        (fun t => t.2) = ["No change"]) ∧
    (((decileGroup (householdUnits e e) d).map
        (fun u => u.baseNet * u.weight)).sum ≠ 0 →
      relByDecile (householdUnits e e) d = some 0) ∧
    (((decileGroup (householdUnits e e) d).map (fun u => u.weight)).sum ≠ 0 →
      avgByDecile (householdUnits e e) d = some 0) := by
  have hself : ∀ u ∈ householdUnits e e, u.refNet = u.baseNet :=
    mkUnits_self e.household_net_income e.household_weight
      e.household_count_people e.household_income_decile
  have hnum : ((decileGroup (householdUnits e e) d).map
      (fun u => (u.refNet - u.baseNet) * u.weight)).sum = 0 := by
    apply List.sum_eq_zero
    intro x hx
    rcases List.mem_map.mp hx with ⟨u, hu, rfl⟩
    rw [hself u (decileGroup_subset _ _ _ hu), sub_self, zero_mul]
  refine ⟨?_, ?_, ?_, ?_, ?_, ?_, ?_⟩
  · simp [budgetaryImpact]
  · simp [budgetaryImpact]
  · simp [budgetaryImpact]
  · simp [budgetaryImpact]
  · intro u hu
    have h0 : unitChange u = 0 := by
      rw [unitChange, hself u hu, cappedIncomeChange_self]
    rw [h0]
    exact bucket_of_zero
  · intro hrel
    rw [relByDecile, hnum]
    simp [fdiv, hrel]
  · intro havg
    rw [avgByDecile, hnum]
    simp [fdiv, havg]

/-- Witness for C9 at a concrete input: comparing the one-household economy `econ1`
with itself, decile 3 has nonzero weighted baseline income and weight sums, all
budget impacts are 0, the single unit lands in "No change", and both decile-3
changes are exactly 0.0. -/
theorem C9_witness :
    (budgetaryImpact econ1 econ1).tax_revenue_impact = 0 ∧
    (budgetaryImpact econ1 econ1).state_tax_revenue_impact = 0 ∧
    (budgetaryImpact econ1 econ1).benefit_spending_impact = 0 ∧
    (budgetaryImpact econ1 econ1).budgetary_impact = 0 ∧
    (∀ u ∈ householdUnits econ1 econ1,
      (bucketTriples.filter (fun t => inGroupQ t.1.1 t.1.2 (unitChange u))).map
        (fun t => t.2) = ["No change"]) ∧
    relByDecile (householdUnits econ1 econ1) 3 = some 0 ∧
    avgByDecile (householdUnits econ1 econ1) 3 = some 0 := by
  have hg : decileGroup (householdUnits econ1 econ1) 3 =
      [(⟨100, 100, 1, 2, 3⟩ : HUnit)] := by
    simp [decileGroup, filteredUnits, householdUnits, econ1, mkUnits, List.filter]
  have h := C9_zero_change econ1 3
  refine ⟨h.1, h.2.1, h.2.2.1, h.2.2.2.1, h.2.2.2.2.1, ?_, ?_⟩
  · apply h.2.2.2.2.2.1
    rw [hg]
    simp
  · apply h.2.2.2.2.2.2
    rw [hg]
    simp

/-- C10: when the simulation is a comparison but the baseline economy's type tag is
neither "general" nor "cliff", the orchestrator raises nothing and returns no
report record: it falls through both branches and produces Python's implicit
`None`. -/
theorem C10_unknown_type (s : Simulation) (h1 : s.is_comparison = true)
    (h2 : s.baselineEconomy.type ≠ "general")
    (h3 : s.baselineEconomy.type ≠ "cliff") :
    calculateEconomyComparison s = Except.ok ComparisonResult.pyNone := by
  simp [calculateEconomyComparison, h1, h2, h3]

/-- Witness for C10 at a concrete input: a comparison simulation whose baseline
economy carries the type tag "other" yields `None` without raising. -/
theorem C10_witness :
    calculateEconomyComparison simOther = Except.ok ComparisonResult.pyNone := by
  apply C10_unknown_type
  · rfl
  · decide
  · decide
